import Mathlib

/-!
# Verification of the Voice-Chat room coordinator (backend/app.py)

Shallow embedding of the in-memory room/session coordinator from
`src/backend/app.py`: the `rooms` registry (a Python dict from room id to a
room dict), and the five socket event handlers `join_room`, `disconnect`,
`send_message`, `join_mic`, `leave_mic`.

Modelling choices:
* Python dicts are insertion-ordered association lists. `dinsert` updates an
  existing key in place (keeping its position) and appends a fresh key at the
  end, exactly like Python assignment into a dict; `derase` models `del`
  (on the maps we reason about, keys are unique, and `del` on an absent key
  never occurs on the reachable paths relevant to the claims, so `derase`
  removing the first occurrence and being the identity on a missing key is
  faithful).
* A payload field that may be missing is an `Option String`; `data.get(k)`
  is the option itself, `data.get(k, "User")` is `Option.getD "User"`, and
  `str(data.get(k))` is `pyStr` (Python's `str(None)` is the string "None").
* `datetime.now().isoformat()` timestamps are an abstract clock value
  (`now : Nat`) passed into each handler; nothing in the claims depends on
  the timestamp format.
* `emit(...)` calls are recorded as an ordered list of outbound `Event`s:
  `to=request.sid` becomes a direct event carrying the sid, and
  `room=room_id` becomes a room-scoped broadcast carrying the room id and
  the `include_self` flag.
-/

namespace VoiceChat

/-! ## Ordered dictionaries as association lists -/

/-- Lookup in an insertion-ordered dict (first binding wins). -/
def dlookup [DecidableEq α] (k : α) : List (α × β) → Option β
  | [] => none
  | (a, b) :: rest => if a = k then some b else dlookup k rest

/-- Python dict assignment `d[k] = v`: update in place if the key exists
(keeping its position), otherwise append at the end. -/
def dinsert [DecidableEq α] (k : α) (v : β) : List (α × β) → List (α × β)
  | [] => [(k, v)]
  | (a, b) :: rest => if a = k then (k, v) :: rest else (a, b) :: dinsert k v rest

/-- Python `del d[k]` on a dict with unique keys: drop the binding of `k`. -/
def derase [DecidableEq α] (k : α) : List (α × β) → List (α × β)
  | [] => []
  | (a, b) :: rest => if a = k then rest else (a, b) :: derase k rest

/-- The keys of an association list, in order. -/
def dkeys (l : List (α × β)) : List α := l.map Prod.fst

/-- A dict has each key at most once (true of every dict built by
`dinsert`/`derase` from the empty dict, as Python dicts are). -/
def NodupKeys (l : List (α × β)) : Prop := (dkeys l).Nodup

/-! ## Data model (the room dict of `get_or_create_room`) -/

/-- A member record: `room["users"][sid] = {"name": ..., "joined_at": ...}`. -/
structure Member where
  name : String
  joined_at : Nat
  deriving DecidableEq, Repr

/-- A chat message: `{"user": ..., "text": ..., "timestamp": ...}`. -/
structure Message where
  user : String
  text : String
  timestamp : Nat
  deriving DecidableEq, Repr

/-- One room, as created by `get_or_create_room`. Mic-slot usernames are
`Option String` because `join_mic` reads `data.get("userName")` with no
default, so Python's `None` can be stored in `mic_slots` / used as a
`user_slots` key. -/
structure Room where
  users : List (String × Member)
  messages : List Message
  mic_slots : List (String × Option String)
  user_slots : List (Option String × String)
  created_at : Nat
  updated_at : Nat
  deriving DecidableEq, Repr

/-- The process-wide registry `rooms = {}`, keyed by room id. -/
abbrev RoomMap := List (String × Room)

/-- `str(x)` applied to a possibly-missing payload field:
`str(None)` is the string `"None"`. -/
def pyStr : Option String → String
  | none => "None"
  | some s => s

/-- Python `str.strip()`: remove whitespace from both ends. (Python also
strips `\f`, `\v` and Unicode spaces, which `Char.isWhitespace` omits; no
claim distinguishes those characters.) -/
def pyStrip (s : String) : String :=
  ⟨((s.data.dropWhile Char.isWhitespace).reverse.dropWhile
      Char.isWhitespace).reverse⟩

/-- The fresh room dict built by `get_or_create_room`. -/
def freshRoom (now : Nat) : Room :=
  { users := [], messages := [], mic_slots := [], user_slots := []
    created_at := now, updated_at := now }

/-! ## Outbound events -/

/-- One `emit(...)` call, with its routing. -/
inductive Event where
  /-- `emit("room_data", {...}, to=request.sid)` -/
  | roomData (sid : String) (users : List Member)
      (micSlots : List (String × Option String)) (roomId yourName : String)
  /-- `emit("new_message", msg, room=room_id, include_self=...)`
  (`includeSelf = true` when the flag is left at its default). -/
  | newMessageRoom (roomId : String) (msg : Message) (includeSelf : Bool)
  /-- `emit("mic_error", {"message": ...}, to=request.sid)` -/
  | micError (sid message : String)
  /-- `emit("mic_update", room["mic_slots"], room=room_id)` -/
  | micUpdate (roomId : String) (micSlots : List (String × Option String))
  deriving DecidableEq, Repr

/-! ## The five socket event handlers -/

/-- `@socketio.on("join_room")` handler `join(data)`. -/
def handleJoin (rooms : RoomMap) (sid : String)
    (roomId? userName? : Option String) (now : Nat) : RoomMap × List Event :=
  let room_id := pyStr roomId?
  let username := userName?.getD "User"
  let room := (dlookup room_id rooms).getD (freshRoom now)
  let users' := dinsert sid ⟨username, now⟩ room.users
  let msg : Message := ⟨"System", username ++ " joined the room", now⟩
  let room' := { room with users := users', messages := room.messages ++ [msg] }
  (dinsert room_id room' rooms,
   [Event.roomData sid (users'.map Prod.snd) room.mic_slots room_id username,
    Event.newMessageRoom room_id msg false])

/-- The `for room_id, room in list(rooms.items())` loop of `disconnect`:
acts on the first room containing `sid` (then `break`), leaving every room
before and after it untouched. -/
def disconnectAux (sid : String) (now : Nat) :
    RoomMap → RoomMap × List Event
  | [] => ([], [])
  | (rid, room) :: rest =>
    match dlookup sid room.users with
    | some mem =>
      let users' := derase sid room.users
      let msg : Message := ⟨"System", mem.name ++ " left the room", now⟩
      let room' := { room with users := users', messages := room.messages ++ [msg] }
      if users'.isEmpty then
        (rest, [Event.newMessageRoom rid msg true])
      else
        ((rid, room') :: rest, [Event.newMessageRoom rid msg true])
    | none =>
      let res := disconnectAux sid now rest
      ((rid, room) :: res.1, res.2)

/-- `@socketio.on("disconnect")` handler. -/
def handleDisconnect (rooms : RoomMap) (sid : String) (now : Nat) :
    RoomMap × List Event :=
  disconnectAux sid now rooms

/-- `@socketio.on("send_message")` handler `message(data)`. -/
def handleMessage (rooms : RoomMap) (sid : String)
    (roomId? text? userName? : Option String) (now : Nat) : RoomMap × List Event :=
  let room_id := pyStr roomId?
  let text := pyStrip (text?.getD "")
  let username := userName?.getD "User"
  if text = "" then (rooms, [])
  else
    match dlookup room_id rooms with
    | none => (rooms, [])
    | some room =>
      let msg : Message := ⟨username, text, now⟩
      (dinsert room_id { room with messages := room.messages ++ [msg] } rooms,
       [Event.newMessageRoom room_id msg true])

/-- `@socketio.on("join_mic")` handler `join_mic(data)`. Note
`data.get("userName")` has no default here. -/
def handleJoinMic (rooms : RoomMap) (sid : String)
    (roomId? slot? userName? : Option String) : RoomMap × List Event :=
  let room_id := pyStr roomId?
  let slot := pyStr slot?
  match dlookup room_id rooms with
  | none => (rooms, [])
  | some room =>
    if (dlookup slot room.mic_slots).isSome then
      (rooms, [Event.micError sid "Slot already taken"])
    else
      let mic' := dinsert slot userName? room.mic_slots
      let room' := { room with mic_slots := mic',
                               user_slots := dinsert userName? slot room.user_slots }
      (dinsert room_id room' rooms, [Event.micUpdate room_id mic'])

/-- `@socketio.on("leave_mic")` handler `leave_mic(data)`. The Python guard
is `if slot:` — truthiness — so both a missing `user_slots` entry and a
stored empty-string slot id fall through to the no-op branch. -/
def handleLeaveMic (rooms : RoomMap) (sid : String)
    (roomId? userName? : Option String) : RoomMap × List Event :=
  let room_id := pyStr roomId?
  match dlookup room_id rooms with
  | none => (rooms, [])
  | some room =>
    match dlookup userName? room.user_slots with
    | none => (rooms, [])
    | some slot =>
      if slot = "" then (rooms, [])
      else
        let room' := { room with mic_slots := derase slot room.mic_slots,
                                 user_slots := derase userName? room.user_slots }
        (dinsert room_id room' rooms,
         [Event.micUpdate room_id (derase slot room.mic_slots)])

/-! ## Inbound operations and reachability -/

/-- One inbound socket event (the five state-relevant handlers). -/
inductive Op where
  | join (sid : String) (roomId? userName? : Option String) (now : Nat)
  | disconnect (sid : String) (now : Nat)
  | message (sid : String) (roomId? text? userName? : Option String) (now : Nat)
  | joinMic (sid : String) (roomId? slot? userName? : Option String)
  | leaveMic (sid : String) (roomId? userName? : Option String)
  deriving DecidableEq, Repr

/-- Dispatch one inbound operation to its handler. -/
def applyOp (rooms : RoomMap) : Op → RoomMap × List Event
  | .join sid roomId? userName? now => handleJoin rooms sid roomId? userName? now
  | .disconnect sid now => handleDisconnect rooms sid now
  | .message sid roomId? text? userName? now =>
      handleMessage rooms sid roomId? text? userName? now
  | .joinMic sid roomId? slot? userName? =>
      handleJoinMic rooms sid roomId? slot? userName?
  | .leaveMic sid roomId? userName? => handleLeaveMic rooms sid roomId? userName?

/-- The registry states reachable from the empty registry (`rooms = {}` at
process start) by any sequence of inbound operations. -/
inductive Reachable : RoomMap → Prop where
  | init : Reachable []
  | step (s : RoomMap) (op : Op) : Reachable s → Reachable (applyOp s op).1

/-! ## Spec-side predicates -/

/-- §3/§8 of the spec: `mic_slots` and `user_slots` are exact mutual
inverses. -/
def micInverse (room : Room) : Prop :=
  ∀ (slot : String) (u : Option String),
    dlookup slot room.mic_slots = some u ↔ dlookup u room.user_slots = some slot

/-- An operation is a "safe" step when it is not a `join_mic` that assigns a
slot to a user who already holds one (the double-claim the spec flags as an
open correctness gap in §9). Every other operation, and a `join_mic` that is
rejected or hits a missing room, is safe. -/
def safeOp (rooms : RoomMap) : Op → Bool
  | .joinMic _ roomId? slot? userName? =>
    match dlookup (pyStr roomId?) rooms with
    | none => true
    | some room =>
      (dlookup (pyStr slot?) room.mic_slots).isSome
        || (dlookup userName? room.user_slots).isNone
  | _ => true

/-- Reachability restricted to safe steps: no user ever claims a second mic
slot while still holding one. -/
inductive SafeReachable : RoomMap → Prop where
  | init : SafeReachable []
  | step (s : RoomMap) (op : Op) : SafeReachable s → safeOp s op = true →
      SafeReachable (applyOp s op).1

/-- The per-room structural invariant every reachable registry satisfies:
the room has at least one member and its mic maps have unique keys. -/
def RoomWF (room : Room) : Prop :=
  room.users ≠ [] ∧ NodupKeys room.mic_slots ∧ NodupKeys room.user_slots

/-! ## Dictionary lemmas -/

theorem dlookup_dinsert [DecidableEq α] (k k' : α) (v : β) (l : List (α × β)) :
    dlookup k (dinsert k' v l) = if k' = k then some v else dlookup k l := by
  induction l with
  | nil => by_cases h : k' = k <;> simp [dinsert, dlookup, h]
  | cons p rest ih =>
    obtain ⟨a, b⟩ := p
    by_cases hak : a = k'
    · subst hak
      by_cases h : a = k <;> simp [dinsert, dlookup, h]
    · by_cases h : a = k
      · subst h
        have hne : k' ≠ a := fun hh => hak hh.symm
        simp [dinsert, dlookup, hak, hne]
      · simp [dinsert, dlookup, hak, h, ih]

theorem dlookup_derase_ne [DecidableEq α] (k k' : α) (l : List (α × β))
    (hne : k' ≠ k) : dlookup k (derase k' l) = dlookup k l := by
  induction l with
  | nil => simp [derase, dlookup]
  | cons p rest ih =>
    obtain ⟨a, b⟩ := p
    by_cases hak : a = k'
    · subst hak
      have : a ≠ k := hne
      simp [derase, dlookup, this]
    · by_cases h : a = k
      · subst h
        simp [derase, dlookup, hak]
      · simp [derase, dlookup, hak, h, ih]

theorem dlookup_eq_none_of_not_mem_keys [DecidableEq α] (k : α)
    (l : List (α × β)) (h : k ∉ dkeys l) : dlookup k l = none := by
  induction l with
  | nil => simp [dlookup]
  | cons p rest ih =>
    obtain ⟨a, b⟩ := p
    simp only [dkeys, List.map_cons, List.mem_cons] at h
    push_neg at h
    have hak : a ≠ k := fun hh => h.1 hh.symm
    simpa [dlookup, hak] using ih (by simpa [dkeys] using h.2)

theorem dlookup_derase_self [DecidableEq α] (k : α) (l : List (α × β))
    (hnd : NodupKeys l) : dlookup k (derase k l) = none := by
  induction l with
  | nil => simp [derase, dlookup]
  | cons p rest ih =>
    obtain ⟨a, b⟩ := p
    simp only [NodupKeys, dkeys, List.map_cons, List.nodup_cons] at hnd
    by_cases hak : a = k
    · subst hak
      simp only [derase, if_pos rfl]
      exact dlookup_eq_none_of_not_mem_keys _ _ (by simpa [dkeys] using hnd.1)
    · simpa [derase, dlookup, hak] using ih hnd.2

theorem dkeys_dinsert_subset [DecidableEq α] (k : α) (v : β) (l : List (α × β)) :
    dkeys (dinsert k v l) ⊆ k :: dkeys l := by
  induction l with
  | nil => simp [dinsert, dkeys]
  | cons p rest ih =>
    obtain ⟨a, b⟩ := p
    by_cases hak : a = k
    · subst hak; simp [dinsert, dkeys]
    · simp only [dinsert, hak, if_false, dkeys, List.map_cons]
      intro x hx
      rcases List.mem_cons.mp hx with rfl | hx
      · simp
      · rcases List.mem_cons.mp (ih hx) with rfl | hx2
        · simp
        · exact List.mem_cons_of_mem _ (List.mem_cons_of_mem _ hx2)

theorem nodupKeys_dinsert [DecidableEq α] (k : α) (v : β) (l : List (α × β))
    (hnd : NodupKeys l) : NodupKeys (dinsert k v l) := by
  induction l with
  | nil => simp [dinsert, NodupKeys, dkeys]
  | cons p rest ih =>
    obtain ⟨a, b⟩ := p
    simp only [NodupKeys, dkeys, List.map_cons, List.nodup_cons] at hnd
    by_cases hak : a = k
    · subst hak
      simpa [dinsert, NodupKeys, dkeys] using hnd
    · have tail := ih hnd.2
      have hsub := dkeys_dinsert_subset k v rest
      simp only [dinsert, hak, if_false, NodupKeys, dkeys, List.map_cons]
      refine List.nodup_cons.mpr ⟨?_, tail⟩
      intro hmem
      rcases List.mem_cons.mp (hsub hmem) with rfl | hmem'
      · exact hak rfl
      · exact hnd.1 hmem'

theorem dkeys_derase_sublist [DecidableEq α] (k : α) (l : List (α × β)) :
    (dkeys (derase k l)).Sublist (dkeys l) := by
  induction l with
  | nil => simp [derase, dkeys]
  | cons p rest ih =>
    obtain ⟨a, b⟩ := p
    by_cases hak : a = k
    · subst hak
      simpa [derase, dkeys] using (List.sublist_cons_self _ _)
    · simpa [derase, dkeys, hak] using ih.cons₂ a

theorem nodupKeys_derase [DecidableEq α] (k : α) (l : List (α × β))
    (hnd : NodupKeys l) : NodupKeys (derase k l) :=
  (dkeys_derase_sublist k l).nodup hnd

theorem dlookup_mem [DecidableEq α] (k : α) (v : β) (l : List (α × β))
    (h : dlookup k l = some v) : (k, v) ∈ l := by
  induction l with
  | nil => simp [dlookup] at h
  | cons p rest ih =>
    obtain ⟨a, b⟩ := p
    by_cases hak : a = k
    · subst hak
      have hb : b = v := by simpa [dlookup] using h
      subst hb
      simp
    · simp only [dlookup, hak, if_false] at h
      exact List.mem_cons_of_mem _ (ih h)

theorem mem_dinsert [DecidableEq α] (k : α) (v : β) (l : List (α × β))
    (p : α × β) (h : p ∈ dinsert k v l) : p = (k, v) ∨ p ∈ l := by
  induction l with
  | nil => simpa [dinsert] using h
  | cons q rest ih =>
    obtain ⟨a, b⟩ := q
    by_cases hak : a = k
    · subst hak
      rcases List.mem_cons.mp (by simpa [dinsert] using h) with rfl | hm
      · exact Or.inl rfl
      · exact Or.inr (List.mem_cons_of_mem _ hm)
    · rcases List.mem_cons.mp (by simpa [dinsert, hak] using h) with rfl | hm
      · exact Or.inr (by simp)
      · rcases ih hm with rfl | hm' <;> [exact Or.inl rfl; exact Or.inr (List.mem_cons_of_mem _ hm')]

/-! ## Structural invariants of reachable registries -/

theorem dinsert_ne_nil [DecidableEq α] (k : α) (v : β) (l : List (α × β)) :
    dinsert k v l ≠ [] := by
  cases l with
  | nil => simp [dinsert]
  | cons p rest =>
    obtain ⟨a, b⟩ := p
    by_cases h : a = k <;> simp [dinsert, h]

/-- Any per-room property is preserved by the `disconnect` loop, provided it
survives the removal of the leaving member (when the room is kept because it
is still non-empty). -/
theorem disconnectAux_preserves (P : Room → Prop) (sid : String) (now : Nat)
    (l : RoomMap) (hP : ∀ p ∈ l, P p.2)
    (hmod : ∀ room mem, P room → dlookup sid room.users = some mem →
      (derase sid room.users).isEmpty = false →
      P { room with users := derase sid room.users,
                    messages := room.messages ++
                      [⟨"System", mem.name ++ " left the room", now⟩] }) :
    ∀ p ∈ (disconnectAux sid now l).1, P p.2 := by
  induction l with
  | nil => simp [disconnectAux]
  | cons q rest ih =>
    obtain ⟨rid, room⟩ := q
    have hhead : P room := hP (rid, room) (by simp)
    have htail : ∀ p ∈ rest, P p.2 := fun p hp => hP p (List.mem_cons_of_mem _ hp)
    intro p hp
    rcases hl : dlookup sid room.users with - | mem
    · simp only [disconnectAux, hl] at hp
      rcases List.mem_cons.mp hp with rfl | hp'
      · exact hhead
      · exact ih htail p hp'
    · simp only [disconnectAux, hl] at hp
      rcases he : (derase sid room.users).isEmpty with - | -
      · rw [he] at hp
        simp only [if_neg Bool.false_ne_true] at hp
        rcases List.mem_cons.mp hp with rfl | hp'
        · exact hmod room mem hhead hl he
        · exact htail p hp'
      · rw [he] at hp
        simp only [if_pos rfl] at hp
        exact htail p hp

/-- Every single inbound operation preserves the structural room invariant
(non-empty membership, unique mic-map keys) of every room in the registry. -/
theorem applyOp_preserves_roomWF (s : RoomMap) (op : Op)
    (h : ∀ p ∈ s, RoomWF p.2) : ∀ p ∈ (applyOp s op).1, RoomWF p.2 := by
  cases op with
  | join sid roomId? userName? now =>
    intro p hp
    rcases mem_dinsert _ _ _ _ hp with rfl | hp'
    · refine ⟨dinsert_ne_nil _ _ _, ?_, ?_⟩ <;>
      · rcases hl : dlookup (pyStr roomId?) s with - | room0
        · simp [hl, freshRoom, NodupKeys, dkeys]
        · have := h _ (dlookup_mem _ _ _ hl)
          simp only [hl]
          first
            | exact this.2.1
            | exact this.2.2
    · exact h p hp'
  | disconnect sid now =>
    refine disconnectAux_preserves RoomWF sid now s h ?_
    intro room mem hroom hmem hne
    refine ⟨?_, hroom.2.1, hroom.2.2⟩
    intro hnil
    have hd : derase sid room.users = [] := hnil
    rw [hd] at hne
    simp at hne
  | message sid roomId? text? userName? now =>
    intro p hp
    by_cases htext : pyStrip (text?.getD "") = ""
    · simp only [applyOp, handleMessage, htext, if_pos rfl] at hp
      exact h p hp
    · rcases hl : dlookup (pyStr roomId?) s with - | room0
      · simp only [applyOp, handleMessage, htext, if_neg htext, hl] at hp
        exact h p hp
      · simp only [applyOp, handleMessage, htext, if_neg htext, hl] at hp
        rcases mem_dinsert _ _ _ _ hp with rfl | hp'
        · have := h _ (dlookup_mem _ _ _ hl)
          exact ⟨this.1, this.2.1, this.2.2⟩
        · exact h p hp'
  | joinMic sid roomId? slot? userName? =>
    intro p hp
    rcases hl : dlookup (pyStr roomId?) s with - | room0
    · simp only [applyOp, handleJoinMic, hl] at hp
      exact h p hp
    · rcases hocc : (dlookup (pyStr slot?) room0.mic_slots).isSome with - | -
      · simp only [applyOp, handleJoinMic, hl, hocc, Bool.false_eq_true,
          if_neg Bool.false_ne_true] at hp
        rcases mem_dinsert _ _ _ _ hp with rfl | hp'
        · have := h _ (dlookup_mem _ _ _ hl)
          exact ⟨this.1, nodupKeys_dinsert _ _ _ this.2.1,
            nodupKeys_dinsert _ _ _ this.2.2⟩
        · exact h p hp'
      · simp only [applyOp, handleJoinMic, hl, hocc, if_pos rfl] at hp
        exact h p hp
  | leaveMic sid roomId? userName? =>
    intro p hp
    rcases hl : dlookup (pyStr roomId?) s with - | room0
    · simp only [applyOp, handleLeaveMic, hl] at hp
      exact h p hp
    · rcases hus : dlookup userName? room0.user_slots with - | slot
      · simp only [applyOp, handleLeaveMic, hl, hus] at hp
        exact h p hp
      · by_cases hsl : slot = ""
        · simp only [applyOp, handleLeaveMic, hl, hus, hsl, if_pos rfl] at hp
          exact h p hp
        · simp only [applyOp, handleLeaveMic, hl, hus, if_neg hsl] at hp
          rcases mem_dinsert _ _ _ _ hp with rfl | hp'
          · have := h _ (dlookup_mem _ _ _ hl)
            exact ⟨this.1, nodupKeys_derase _ _ this.2.1,
              nodupKeys_derase _ _ this.2.2⟩
          · exact h p hp'

/-- Every reachable registry satisfies the structural room invariant. -/
theorem reachable_roomWF (s : RoomMap) (hs : Reachable s) :
    ∀ p ∈ s, RoomWF p.2 := by
  induction hs with
  | init => simp
  | step s' op _ ih => exact applyOp_preserves_roomWF s' op ih

/-! ## Mutual-inverse lemmas for the mic maps -/

/-- Inserting a fresh pair `(slot, u)` on both sides of a pair of mutually
inverse dicts keeps them mutually inverse, provided neither key was bound. -/
theorem inverse_dinsert [DecidableEq α] [DecidableEq β]
    (mic : List (α × β)) (us : List (β × α)) (slot : α) (u : β)
    (hinv : ∀ s' u', dlookup s' mic = some u' ↔ dlookup u' us = some s')
    (hslot : dlookup slot mic = none) (hu : dlookup u us = none) :
    ∀ s' u', dlookup s' (dinsert slot u mic) = some u' ↔
      dlookup u' (dinsert u slot us) = some s' := by
  intro s' u'
  rw [dlookup_dinsert, dlookup_dinsert]
  by_cases hs : slot = s'
  · subst hs
    by_cases hu' : u = u'
    · subst hu'; simp
    · simp only [if_pos rfl, if_neg hu']
      constructor
      · intro hh
        exact absurd (Option.some_injective _ hh) hu'
      · intro hh
        have := (hinv slot u').mpr hh
        rw [hslot] at this
        cases this
  · by_cases hu' : u = u'
    · subst hu'
      simp only [if_neg hs, if_pos rfl]
      constructor
      · intro hh
        have := (hinv s' u).mp hh
        rw [hu] at this
        cases this
      · intro hh
        exact absurd (Option.some_injective _ hh) hs
    · simp only [if_neg hs, if_neg hu']
      exact hinv s' u'

/-- Erasing the pair `(slot, u)` from both sides of a pair of mutually
inverse dicts keeps them mutually inverse. -/
theorem inverse_derase [DecidableEq α] [DecidableEq β]
    (mic : List (α × β)) (us : List (β × α)) (slot : α) (u : β)
    (hmicnd : NodupKeys mic) (husnd : NodupKeys us)
    (hinv : ∀ s' u', dlookup s' mic = some u' ↔ dlookup u' us = some s')
    (hu : dlookup u us = some slot) :
    ∀ s' u', dlookup s' (derase slot mic) = some u' ↔
      dlookup u' (derase u us) = some s' := by
  intro s' u'
  by_cases hs : slot = s'
  · subst hs
    rw [dlookup_derase_self _ _ hmicnd]
    constructor
    · intro hh; cases hh
    · intro hh
      by_cases hu' : u = u'
      · subst hu'
        rw [dlookup_derase_self _ _ husnd] at hh
        cases hh
      · rw [dlookup_derase_ne _ _ _ hu'] at hh
        have h1 := (hinv slot u').mpr hh
        have h2 := (hinv slot u).mpr hu
        rw [h2] at h1
        exact absurd (Option.some_injective _ h1) hu'
  · rw [dlookup_derase_ne _ _ _ hs]
    by_cases hu' : u = u'
    · subst hu'
      rw [dlookup_derase_self _ _ husnd]
      constructor
      · intro hh
        have := (hinv s' u).mp hh
        rw [hu] at this
        exact absurd (Option.some_injective _ this) hs
      · intro hh; cases hh
    · rw [dlookup_derase_ne _ _ _ hu']
      exact hinv s' u'

/-- A safe operation (no double slot claim) preserves the mutual-inverse
property of every room's mic maps. -/
theorem applyOp_safe_preserves_micInverse (s : RoomMap) (op : Op)
    (hWF : ∀ p ∈ s, RoomWF p.2) (hinv : ∀ p ∈ s, micInverse p.2)
    (hsafe : safeOp s op = true) :
    ∀ p ∈ (applyOp s op).1, micInverse p.2 := by
  cases op with
  | join sid roomId? userName? now =>
    intro p hp
    rcases mem_dinsert _ _ _ _ hp with rfl | hp'
    · rcases hl : dlookup (pyStr roomId?) s with - | room0
      · simp only [hl]
        intro s' u'
        simp [freshRoom, dlookup]
      · simp only [hl]
        exact hinv _ (dlookup_mem _ _ _ hl)
    · exact hinv p hp'
  | disconnect sid now =>
    refine disconnectAux_preserves micInverse sid now s hinv ?_
    intro room mem hroom _ _
    exact hroom
  | message sid roomId? text? userName? now =>
    intro p hp
    by_cases htext : pyStrip (text?.getD "") = ""
    · simp only [applyOp, handleMessage, htext, if_pos rfl] at hp
      exact hinv p hp
    · rcases hl : dlookup (pyStr roomId?) s with - | room0
      · simp only [applyOp, handleMessage, htext, if_neg htext, hl] at hp
        exact hinv p hp
      · simp only [applyOp, handleMessage, htext, if_neg htext, hl] at hp
        rcases mem_dinsert _ _ _ _ hp with rfl | hp'
        · exact hinv (pyStr roomId?, room0) (dlookup_mem _ _ _ hl)
        · exact hinv p hp'
  | joinMic sid roomId? slot? userName? =>
    intro p hp
    rcases hl : dlookup (pyStr roomId?) s with - | room0
    · simp only [applyOp, handleJoinMic, hl] at hp
      exact hinv p hp
    · rcases hocc : (dlookup (pyStr slot?) room0.mic_slots).isSome with - | -
      · simp only [applyOp, handleJoinMic, hl, hocc,
          if_neg Bool.false_ne_true] at hp
        rcases mem_dinsert _ _ _ _ hp with rfl | hp'
        · have hfree : dlookup (pyStr slot?) room0.mic_slots = none :=
            Option.not_isSome_iff_eq_none.mp (by rw [hocc]; exact Bool.false_ne_true)
          have husfree : dlookup userName? room0.user_slots = none := by
            simp only [safeOp, hl, hocc, Bool.false_or] at hsafe
            exact Option.isNone_iff_eq_none.mp hsafe
          exact inverse_dinsert room0.mic_slots room0.user_slots _ _
            (hinv _ (dlookup_mem _ _ _ hl)) hfree husfree
        · exact hinv p hp'
      · simp only [applyOp, handleJoinMic, hl, hocc, if_pos rfl] at hp
        exact hinv p hp
  | leaveMic sid roomId? userName? =>
    intro p hp
    rcases hl : dlookup (pyStr roomId?) s with - | room0
    · simp only [applyOp, handleLeaveMic, hl] at hp
      exact hinv p hp
    · rcases hus : dlookup userName? room0.user_slots with - | slot
      · simp only [applyOp, handleLeaveMic, hl, hus] at hp
        exact hinv p hp
      · by_cases hsl : slot = ""
        · simp only [applyOp, handleLeaveMic, hl, hus, hsl, if_pos rfl] at hp
          exact hinv p hp
        · simp only [applyOp, handleLeaveMic, hl, hus, if_neg hsl] at hp
          rcases mem_dinsert _ _ _ _ hp with rfl | hp'
          · have hwf := hWF _ (dlookup_mem _ _ _ hl)
            exact inverse_derase room0.mic_slots room0.user_slots slot userName?
              hwf.2.1 hwf.2.2 (hinv _ (dlookup_mem _ _ _ hl)) hus
          · exact hinv p hp'

/-- Safe reachability implies reachability. -/
theorem safeReachable_reachable (s : RoomMap) (hs : SafeReachable s) :
    Reachable s := by
  induction hs with
  | init => exact Reachable.init
  | step s' op _ _ ih => exact Reachable.step s' op ih

/-- In every registry reachable without double slot claims, the mic maps of
every room are mutual inverses. -/
theorem safeReachable_micInverse (s : RoomMap) (hs : SafeReachable s) :
    ∀ p ∈ s, micInverse p.2 := by
  induction hs with
  | init => simp
  | step s' op hs' hsafe ih =>
    exact applyOp_safe_preserves_micInverse s' op
      (reachable_roomWF s' (safeReachable_reachable s' hs')) ih hsafe

/-! ## C1: the mic maps are mutual inverses -/

/-- Claim C1 as stated is false: from the initial state, "alice" joins `r1`,
claims slot `"1"`, then claims slot `"2"`; the second claim overwrites
`userSlots["alice"]` but leaves `micSlots["1"] = "alice"` in place, so after
that operation completes `micSlots` and `userSlots` are not mutual
inverses. -/
theorem C1_mic_inverse_cex :
    ¬ (∀ s, Reachable s → ∀ rid room, dlookup rid s = some room →
        micInverse room) := by
  intro h
  have hr : Reachable (applyOp (applyOp (applyOp []
      (.join "c1" (some "r1") (some "alice") 0)).1
      (.joinMic "c1" (some "r1") (some "1") (some "alice"))).1
      (.joinMic "c1" (some "r1") (some "2") (some "alice"))).1 :=
    Reachable.step _ _ (Reachable.step _ _ (Reachable.step _ _ Reachable.init))
  have hinv := h _ hr "r1"
    { users := [("c1", ⟨"alice", 0⟩)],
      messages := [⟨"System", "alice joined the room", 0⟩],
      mic_slots := [("1", some "alice"), ("2", some "alice")],
      user_slots := [(some "alice", "2")],
      created_at := 0, updated_at := 0 } (by decide)
  have h1 := (hinv "1" (some "alice")).mp (by decide)
  exact absurd h1 (by decide)

/-- Claim C1 amended: after any single inbound operation completes,
`micSlots` and `userSlots` are exact mutual inverses for every room in the
registry, provided no `join_mic` in the history assigned a slot to a user
already holding one (the code does not release the old slot, which is the
only way the inverse property breaks). -/
theorem C1_mic_inverse (s : RoomMap) (hs : SafeReachable s)
    (rid : String) (room : Room) (hroom : dlookup rid s = some room) :
    micInverse room :=
  safeReachable_micInverse s hs _ (dlookup_mem _ _ _ hroom)

/-- Witness for C1 (amended): after "alice" joins `r1` and claims slot `"1"`
(holding no slot before), the mic maps of `r1` are mutual inverses. -/
theorem C1_mic_inverse_witness :
    micInverse
      { users := [("c1", ⟨"alice", 0⟩)],
        messages := [⟨"System", "alice joined the room", 0⟩],
        mic_slots := [("1", some "alice")],
        user_slots := [(some "alice", "1")],
        created_at := 0, updated_at := 0 } :=
  C1_mic_inverse
    (applyOp (applyOp [] (.join "c1" (some "r1") (some "alice") 0)).1
      (.joinMic "c1" (some "r1") (some "1") (some "alice"))).1
    (SafeReachable.step _ _ (SafeReachable.step _ _ SafeReachable.init
      (by decide)) (by decide))
    "r1" _ (by decide)

/-! ## C2: a room is registered iff it has a member -/

/-- Claim C2: after any sequence of membership-changing operations settles,
a room identifier is present in the registry iff that room has at least one
member (so the disconnect of the last member deletes the room: were the
registry to keep an empty room, this equivalence would fail). -/
theorem C2_registry_iff_member (s : RoomMap) (hs : Reachable s) (rid : String) :
    (∃ room, dlookup rid s = some room) ↔
      (∃ room, dlookup rid s = some room ∧ room.users ≠ []) := by
  constructor
  · rintro ⟨room, hroom⟩
    exact ⟨room, hroom, (reachable_roomWF s hs _ (dlookup_mem _ _ _ hroom)).1⟩
  · rintro ⟨room, hroom, -⟩
    exact ⟨room, hroom⟩

/-- Witness for C2: at the reachable state where "alice" joined `r1` and
"bob" joined and disconnected again, the equivalence holds for `r1`. -/
theorem C2_registry_iff_member_witness :
    (∃ room, dlookup "r1" (applyOp (applyOp (applyOp []
        (.join "c1" (some "r1") (some "alice") 0)).1
        (.join "c2" (some "r1") (some "bob") 1)).1
        (.disconnect "c2" 2)).1 = some room) ↔
      (∃ room, dlookup "r1" (applyOp (applyOp (applyOp []
        (.join "c1" (some "r1") (some "alice") 0)).1
        (.join "c2" (some "r1") (some "bob") 1)).1
        (.disconnect "c2" 2)).1 = some room ∧ room.users ≠ []) :=
  C2_registry_iff_member _
    (Reachable.step _ _ (Reachable.step _ _ (Reachable.step _ _ Reachable.init)))
    "r1"

/-! ## C3: join_mic behaviour on an existing room -/

/-- Claim C3: when `join_mic` is invoked for an existing room, an occupied
slot yields a `mic_error` rejection to the requesting connection only with
the whole registry unchanged; a free slot assigns `micSlots[slot] = username`
and `userSlots[username] = slot` and broadcasts the full updated `micSlots`
mapping to the room. -/
theorem C3_join_mic_existing_room (s : RoomMap) (sid : String)
    (roomId? slot? userName? : Option String) (room : Room)
    (hroom : dlookup (pyStr roomId?) s = some room) :
    ((dlookup (pyStr slot?) room.mic_slots).isSome →
      applyOp s (.joinMic sid roomId? slot? userName?) =
        (s, [Event.micError sid "Slot already taken"]))
    ∧ (dlookup (pyStr slot?) room.mic_slots = none →
      applyOp s (.joinMic sid roomId? slot? userName?) =
        (dinsert (pyStr roomId?)
          { room with
              mic_slots := dinsert (pyStr slot?) userName? room.mic_slots,
              user_slots := dinsert userName? (pyStr slot?) room.user_slots } s,
         [Event.micUpdate (pyStr roomId?)
            (dinsert (pyStr slot?) userName? room.mic_slots)])) := by
  constructor
  · intro hocc
    simp [applyOp, handleJoinMic, hroom, hocc]
  · intro hfree
    simp [applyOp, handleJoinMic, hroom, hfree]

/-- Witness for C3: in a room where "alice" holds slot `"1"`, "bob"'s claim
of slot `"1"` is rejected with `mic_error` and the registry is unchanged. -/
theorem C3_join_mic_existing_room_witness :
    applyOp [("r1", { users := [("c1", ⟨"alice", 0⟩), ("c2", ⟨"bob", 1⟩)],
                      messages := [], mic_slots := [("1", some "alice")],
                      user_slots := [(some "alice", "1")],
                      created_at := 0, updated_at := 0 })]
        (.joinMic "c2" (some "r1") (some "1") (some "bob")) =
      ([("r1", { users := [("c1", ⟨"alice", 0⟩), ("c2", ⟨"bob", 1⟩)],
                 messages := [], mic_slots := [("1", some "alice")],
                 user_slots := [(some "alice", "1")],
                 created_at := 0, updated_at := 0 })],
       [Event.micError "c2" "Slot already taken"]) :=
  (C3_join_mic_existing_room
    [("r1", { users := [("c1", ⟨"alice", 0⟩), ("c2", ⟨"bob", 1⟩)],
              messages := [], mic_slots := [("1", some "alice")],
              user_slots := [(some "alice", "1")],
              created_at := 0, updated_at := 0 })]
    "c2" (some "r1") (some "1") (some "bob")
    { users := [("c1", ⟨"alice", 0⟩), ("c2", ⟨"bob", 1⟩)],
      messages := [], mic_slots := [("1", some "alice")],
      user_slots := [(some "alice", "1")],
      created_at := 0, updated_at := 0 }
    (by decide)).1 (by decide)

/-! ## C4: leave_mic -/

/-- Claim C4 as stated is false: it says `leave_mic` is a no-op exactly when
the room is absent or `userSlots` has no entry for the username, and
otherwise deletes both entries and broadcasts. The code guards with Python
truthiness (`if slot:`), so a stored empty-string slot id also produces a
no-op even though the `userSlots` entry exists. Counterexample: "alice"
claims slot `""`, then `leave_mic` leaves both maps unchanged and emits
nothing. -/
theorem C4_leave_mic_cex :
    ¬ (∀ s, Reachable s → ∀ (sid : String) (roomId? userName? : Option String),
      ((dlookup (pyStr roomId?) s = none ∨
        (∀ room, dlookup (pyStr roomId?) s = some room →
          dlookup userName? room.user_slots = none)) →
        applyOp s (.leaveMic sid roomId? userName?) = (s, []))
      ∧ (∀ room slot, dlookup (pyStr roomId?) s = some room →
          dlookup userName? room.user_slots = some slot →
          applyOp s (.leaveMic sid roomId? userName?) =
            (dinsert (pyStr roomId?)
              { room with mic_slots := derase slot room.mic_slots,
                          user_slots := derase userName? room.user_slots } s,
             [Event.micUpdate (pyStr roomId?) (derase slot room.mic_slots)]))) := by
  intro h
  have hr : Reachable (applyOp (applyOp []
      (.join "c1" (some "r1") (some "alice") 0)).1
      (.joinMic "c1" (some "r1") (some "") (some "alice"))).1 :=
    Reachable.step _ _ (Reachable.step _ _ Reachable.init)
  have h2 := (h _ hr "c1" (some "r1") (some "alice")).2
    { users := [("c1", ⟨"alice", 0⟩)],
      messages := [⟨"System", "alice joined the room", 0⟩],
      mic_slots := [("", some "alice")], user_slots := [(some "alice", "")],
      created_at := 0, updated_at := 0 } "" (by decide) (by decide)
  exact absurd h2 (by decide)

/-- Claim C4 amended: `leave_mic` is a no-op if the room is absent, if
`userSlots` has no entry for the username, or if the stored slot id is the
empty string (the code tests the slot's truthiness, not the entry's
presence); otherwise it deletes both the `micSlots` and `userSlots` entries
and broadcasts the updated `micSlots` mapping to the room. -/
theorem C4_leave_mic_amended (s : RoomMap) (sid : String)
    (roomId? userName? : Option String) :
    (dlookup (pyStr roomId?) s = none →
      applyOp s (.leaveMic sid roomId? userName?) = (s, []))
    ∧ (∀ room, dlookup (pyStr roomId?) s = some room →
      (dlookup userName? room.user_slots = none →
        applyOp s (.leaveMic sid roomId? userName?) = (s, []))
      ∧ (dlookup userName? room.user_slots = some "" →
        applyOp s (.leaveMic sid roomId? userName?) = (s, []))
      ∧ (∀ slot, dlookup userName? room.user_slots = some slot → slot ≠ "" →
        applyOp s (.leaveMic sid roomId? userName?) =
          (dinsert (pyStr roomId?)
            { room with mic_slots := derase slot room.mic_slots,
                        user_slots := derase userName? room.user_slots } s,
           [Event.micUpdate (pyStr roomId?) (derase slot room.mic_slots)]))) := by
  refine ⟨?_, fun room hroom => ⟨?_, ?_, ?_⟩⟩
  · intro habs
    simp [applyOp, handleLeaveMic, habs]
  · intro hnone
    simp [applyOp, handleLeaveMic, hroom, hnone]
  · intro hempty
    simp [applyOp, handleLeaveMic, hroom, hempty]
  · intro slot hslot hne
    simp [applyOp, handleLeaveMic, hroom, hslot, hne]

/-- Witness for C4 (amended): "alice" releases slot `"1"`; both entries are
deleted and the emptied slot map is broadcast. -/
theorem C4_leave_mic_amended_witness :
    applyOp [("r1", { users := [("c1", ⟨"alice", 0⟩)],
                      messages := [], mic_slots := [("1", some "alice")],
                      user_slots := [(some "alice", "1")],
                      created_at := 0, updated_at := 0 })]
        (.leaveMic "c1" (some "r1") (some "alice")) =
      ([("r1", { users := [("c1", ⟨"alice", 0⟩)],
                 messages := [], mic_slots := [], user_slots := [],
                 created_at := 0, updated_at := 0 })],
       [Event.micUpdate "r1" []]) := by
  have h := ((C4_leave_mic_amended
    [("r1", { users := [("c1", ⟨"alice", 0⟩)],
              messages := [], mic_slots := [("1", some "alice")],
              user_slots := [(some "alice", "1")],
              created_at := 0, updated_at := 0 })]
    "c1" (some "r1") (some "alice")).2
    { users := [("c1", ⟨"alice", 0⟩)],
      messages := [], mic_slots := [("1", some "alice")],
      user_slots := [(some "alice", "1")],
      created_at := 0, updated_at := 0 } (by decide)).2.2 "1" (by decide) (by decide)
  exact h.trans (by decide)

/-! ## C5: send_message -/

/-- Claim C5: `send_message` appends `{author, text, timestamp}` to the
room's log and broadcasts it (including the sender) iff the trimmed text is
non-empty and the room exists; otherwise it is a silent no-op. -/
theorem C5_send_message (s : RoomMap) (sid : String)
    (roomId? text? userName? : Option String) (now : Nat) :
    ((pyStrip (text?.getD "") = "" ∨ dlookup (pyStr roomId?) s = none) →
      applyOp s (.message sid roomId? text? userName? now) = (s, []))
    ∧ (∀ room, dlookup (pyStr roomId?) s = some room →
        pyStrip (text?.getD "") ≠ "" →
      applyOp s (.message sid roomId? text? userName? now) =
        (dinsert (pyStr roomId?)
          { room with messages := room.messages ++
              [⟨userName?.getD "User", pyStrip (text?.getD ""), now⟩] } s,
         [Event.newMessageRoom (pyStr roomId?)
            ⟨userName?.getD "User", pyStrip (text?.getD ""), now⟩ true])) := by
  constructor
  · rintro (hempty | habs)
    · simp [applyOp, handleMessage, hempty]
    · by_cases hempty : pyStrip (text?.getD "") = ""
      · simp [applyOp, handleMessage, hempty]
      · simp [applyOp, handleMessage, hempty, habs]
  · intro room hroom hne
    simp [applyOp, handleMessage, hroom, hne]

/-- Witness for C5: a whitespace-only text is dropped silently, at a state
where the room exists. -/
theorem C5_send_message_witness :
    applyOp [("r1", { users := [("c1", ⟨"alice", 0⟩)],
                      messages := [], mic_slots := [], user_slots := [],
                      created_at := 0, updated_at := 0 })]
        (.message "c1" (some "r1") (some "   ") (some "alice") 7) =
      ([("r1", { users := [("c1", ⟨"alice", 0⟩)],
                 messages := [], mic_slots := [], user_slots := [],
                 created_at := 0, updated_at := 0 })], []) :=
  (C5_send_message _ "c1" (some "r1") (some "   ") (some "alice") 7).1
    (Or.inl (by decide))

/-! ## C6: join_room -/

/-- Claim C6: `join_room` sends, to the joining connection only, a
`room_data` snapshot (member list after the insertion, current `micSlots`,
room id, the joiner's display name), appends the system message
`"<name> joined the room"` to the room's log, broadcasts it to the room with
the joiner excluded (`include_self=False`), and leaves every other room
untouched. -/
theorem C6_join_room (s : RoomMap) (sid : String)
    (roomId? userName? : Option String) (now : Nat) :
    (applyOp s (.join sid roomId? userName? now)).2 =
      [Event.roomData sid
        ((dinsert sid ⟨userName?.getD "User", now⟩
            ((dlookup (pyStr roomId?) s).getD (freshRoom now)).users).map Prod.snd)
        ((dlookup (pyStr roomId?) s).getD (freshRoom now)).mic_slots
        (pyStr roomId?) (userName?.getD "User"),
       Event.newMessageRoom (pyStr roomId?)
         ⟨"System", (userName?.getD "User") ++ " joined the room", now⟩ false]
    ∧ dlookup (pyStr roomId?) (applyOp s (.join sid roomId? userName? now)).1 =
        some { (dlookup (pyStr roomId?) s).getD (freshRoom now) with
                users := dinsert sid ⟨userName?.getD "User", now⟩
                  ((dlookup (pyStr roomId?) s).getD (freshRoom now)).users,
                messages :=
                  ((dlookup (pyStr roomId?) s).getD (freshRoom now)).messages ++
                    [⟨"System", (userName?.getD "User") ++ " joined the room", now⟩] }
    ∧ ∀ rid, rid ≠ pyStr roomId? →
        dlookup rid (applyOp s (.join sid roomId? userName? now)).1 =
          dlookup rid s := by
  refine ⟨rfl, ?_, ?_⟩
  · simp [applyOp, handleJoin, dlookup_dinsert]
  · intro rid hne
    simp [applyOp, handleJoin, dlookup_dinsert, Ne.symm hne]

/-- Witness for C6: "bob" joins room `r1` where "alice" is present; "bob"
alone gets the snapshot, and the join notice excludes him. -/
theorem C6_join_room_witness :
    dlookup "r2" (applyOp
      [("r1", { users := [("c1", ⟨"alice", 0⟩)],
                messages := [], mic_slots := [], user_slots := [],
                created_at := 0, updated_at := 0 })]
      (.join "c2" (some "r1") (some "bob") 4)).1 = dlookup "r2"
      [("r1", { users := [("c1", ⟨"alice", 0⟩)],
                messages := [], mic_slots := [], user_slots := [],
                created_at := 0, updated_at := 0 })] :=
  (C6_join_room
    [("r1", { users := [("c1", ⟨"alice", 0⟩)],
              messages := [], mic_slots := [], user_slots := [],
              created_at := 0, updated_at := 0 })]
    "c2" (some "r1") (some "bob") 4).2.2 "r2" (by decide)

/-! ## C7: disconnect -/

/-- Helper for C7: when no room in the registry contains the disconnecting
connection, the loop of `disconnect` changes nothing and emits nothing. -/
theorem disconnectAux_no_member (sid : String) (now : Nat) (l : RoomMap)
    (h : ∀ p ∈ l, dlookup sid p.2.users = none) :
    disconnectAux sid now l = (l, []) := by
  induction l with
  | nil => rfl
  | cons p rest ih =>
    obtain ⟨rid, room⟩ := p
    have h0 : dlookup sid room.users = none := h (rid, room) (by simp)
    have ih' := ih (fun q hq => h q (List.mem_cons_of_mem _ hq))
    simp [disconnectAux, h0, ih']

/-- Helper for C7: the loop of `disconnect` acts on the first room
containing the connection: the member entry is erased, the leave notice is
appended and broadcast, and the room is dropped exactly when it became
empty; rooms before and after are untouched. -/
theorem disconnectAux_found (sid : String) (now : Nat) (pre post : RoomMap)
    (rid : String) (room : Room) (mem : Member)
    (hpre : ∀ p ∈ pre, dlookup sid p.2.users = none)
    (hmem : dlookup sid room.users = some mem) :
    disconnectAux sid now (pre ++ (rid, room) :: post) =
      (if (derase sid room.users).isEmpty then pre ++ post
       else pre ++ (rid, { room with
                            users := derase sid room.users,
                            messages := room.messages ++
                              [⟨"System", mem.name ++ " left the room", now⟩] }) :: post,
       [Event.newMessageRoom rid
          ⟨"System", mem.name ++ " left the room", now⟩ true]) := by
  induction pre with
  | nil =>
    by_cases he : (derase sid room.users).isEmpty <;>
      simp [disconnectAux, hmem, he]
  | cons q pre' ih =>
    obtain ⟨qid, qroom⟩ := q
    have h0 : dlookup sid qroom.users = none := hpre (qid, qroom) (by simp)
    have ih' := ih (fun p hp => hpre p (List.mem_cons_of_mem _ hp))
    simp only [List.cons_append, disconnectAux, h0]
    by_cases he : (derase sid room.users).isEmpty <;> simp [he, ih']

/-- Claim C7: disconnecting a connection that is a member of a room removes
its member entry, appends and broadcasts `"<name> left the room"`, and
deletes the room iff its member count reached zero; disconnecting a
connection that belongs to no room is a no-op with no events. (The loop of
`disconnect` stops at the first room containing the connection, so the room
acted on is the first one; rooms before and after it are untouched.) -/
theorem C7_disconnect (s : RoomMap) (sid : String) (now : Nat) :
    ((∀ p ∈ s, dlookup sid p.2.users = none) →
      applyOp s (.disconnect sid now) = (s, []))
    ∧ (∀ pre rid room post mem,
        s = pre ++ (rid, room) :: post →
        (∀ p ∈ pre, dlookup sid p.2.users = none) →
        dlookup sid room.users = some mem →
        applyOp s (.disconnect sid now) =
          (if (derase sid room.users).isEmpty then pre ++ post
           else pre ++ (rid, { room with
                                users := derase sid room.users,
                                messages := room.messages ++
                                  [⟨"System", mem.name ++ " left the room", now⟩] }) :: post,
           [Event.newMessageRoom rid
              ⟨"System", mem.name ++ " left the room", now⟩ true])) := by
  constructor
  · intro h
    exact disconnectAux_no_member sid now s h
  · rintro pre rid room post mem rfl hpre hmem
    exact disconnectAux_found sid now pre post rid room mem hpre hmem

/-! ## C8: single-room membership -/

/-- Claim C8 as stated is false: `join_room` never removes the connection
from a previously joined room, so a connection that joins `r1` and then `r2`
is simultaneously in the members mapping of both rooms. -/
theorem C8_single_room_cex :
    ¬ (∀ s, Reachable s → ∀ (sid rid1 rid2 : String) (room1 room2 : Room),
        rid1 ≠ rid2 → dlookup rid1 s = some room1 →
        dlookup rid2 s = some room2 →
        ¬ ((dlookup sid room1.users).isSome ∧
           (dlookup sid room2.users).isSome)) := by
  intro h
  have hr : Reachable (applyOp (applyOp []
      (.join "c1" (some "r1") (some "alice") 0)).1
      (.join "c1" (some "r2") (some "alice") 1)).1 :=
    Reachable.step _ _ (Reachable.step _ _ Reachable.init)
  exact h _ hr "c1" "r1" "r2"
    { users := [("c1", ⟨"alice", 0⟩)],
      messages := [⟨"System", "alice joined the room", 0⟩],
      mic_slots := [], user_slots := [], created_at := 0, updated_at := 0 }
    { users := [("c1", ⟨"alice", 1⟩)],
      messages := [⟨"System", "alice joined the room", 1⟩],
      mic_slots := [], user_slots := [], created_at := 1, updated_at := 1 }
    (by decide) (by decide) (by decide) (by decide)

/-- Claim C8 amended: a `join_room` by a connection already bound to some
room does not rebind it away from the old room: every other room's registry
entry (membership included) is left exactly as it was, while the connection
is also inserted into the target room's members; hence a connection can be a
member of two distinct rooms simultaneously. -/
theorem C8_join_keeps_other_rooms (s : RoomMap) (sid : String)
    (roomId? userName? : Option String) (now : Nat) :
    (∀ rid, rid ≠ pyStr roomId? →
      dlookup rid (applyOp s (.join sid roomId? userName? now)).1 =
        dlookup rid s)
    ∧ (∃ room', dlookup (pyStr roomId?)
          (applyOp s (.join sid roomId? userName? now)).1 = some room'
        ∧ dlookup sid room'.users = some ⟨userName?.getD "User", now⟩) := by
  constructor
  · intro rid hne
    simp [applyOp, handleJoin, dlookup_dinsert, Ne.symm hne]
  · refine ⟨{ (dlookup (pyStr roomId?) s).getD (freshRoom now) with
        users := dinsert sid ⟨userName?.getD "User", now⟩
          ((dlookup (pyStr roomId?) s).getD (freshRoom now)).users,
        messages :=
          ((dlookup (pyStr roomId?) s).getD (freshRoom now)).messages ++
            [⟨"System", (userName?.getD "User") ++ " joined the room", now⟩] },
      ?_, ?_⟩
    · simp [applyOp, handleJoin, dlookup_dinsert]
    · simp [dlookup_dinsert]

/-- Witness for C8 (amended): "alice" (connection `c1`), already in `r1`,
joins `r2`; `r1`'s entry is untouched, and `c1` is a member of `r2`. -/
theorem C8_join_keeps_other_rooms_witness :
    dlookup "r1" (applyOp
      [("r1", { users := [("c1", ⟨"alice", 0⟩)],
                messages := [], mic_slots := [], user_slots := [],
                created_at := 0, updated_at := 0 })]
      (.join "c1" (some "r2") (some "alice") 1)).1 = dlookup "r1"
      [("r1", { users := [("c1", ⟨"alice", 0⟩)],
                messages := [], mic_slots := [], user_slots := [],
                created_at := 0, updated_at := 0 })] :=
  (C8_join_keeps_other_rooms
    [("r1", { users := [("c1", ⟨"alice", 0⟩)],
              messages := [], mic_slots := [], user_slots := [],
              created_at := 0, updated_at := 0 })]
    "c1" (some "r2") (some "alice") 1).1 "r1" (by decide)

/-! ## C9: missing userName fields -/

/-- Claim C9 as stated is false: there is no placeholder display name whose
substitution reproduces what the code does for a missing `userName` on all
four events. `join_room` and `send_message` default to `"User"`, but
`join_mic` reads `data.get("userName")` with no default and records the
absent value itself (Python `None`) in `micSlots`, which no string
placeholder can match. -/
theorem C9_missing_username_cex :
    ¬ (∃ placeholder : String,
        ∀ (s : RoomMap) (sid : String) (roomId? text? slot? : Option String)
          (now : Nat),
          applyOp s (.join sid roomId? none now) =
            applyOp s (.join sid roomId? (some placeholder) now)
          ∧ applyOp s (.message sid roomId? text? none now) =
              applyOp s (.message sid roomId? text? (some placeholder) now)
          ∧ applyOp s (.joinMic sid roomId? slot? none) =
              applyOp s (.joinMic sid roomId? slot? (some placeholder))
          ∧ applyOp s (.leaveMic sid roomId? none) =
              applyOp s (.leaveMic sid roomId? (some placeholder))) := by
  rintro ⟨p, h⟩
  have h3 := (h [("r1",
      { users := [("c1", ⟨"alice", 0⟩)], messages := [],
        mic_slots := [], user_slots := [],
        created_at := 0, updated_at := 0 })]
      "c1" (some "r1") none (some "1") 0).2.2.1
  have h4 : (some (none : Option String)) = some (some p) :=
    congrArg
      (fun res : RoomMap × List Event =>
        (dlookup "r1" res.1).bind (fun rm : Room => dlookup "1" rm.mic_slots))
      h3
  simp at h4

/-- Claim C9 amended: a missing `userName` is replaced by the placeholder
`"User"` for `join_room` and `send_message` (whose handlers pass a default
to `data.get`); `join_mic` and `leave_mic` perform no substitution, and in
particular `join_mic` with a missing `userName` records the absent value
itself as the slot holder in `micSlots`. -/
theorem C9_missing_username_amended (s : RoomMap) (sid : String)
    (roomId? text? slot? : Option String) (now : Nat) :
    applyOp s (.join sid roomId? none now) =
      applyOp s (.join sid roomId? (some "User") now)
    ∧ applyOp s (.message sid roomId? text? none now) =
        applyOp s (.message sid roomId? text? (some "User") now)
    ∧ (∀ room, dlookup (pyStr roomId?) s = some room →
        dlookup (pyStr slot?) room.mic_slots = none →
        ∃ room', dlookup (pyStr roomId?)
            (applyOp s (.joinMic sid roomId? slot? none)).1 = some room'
          ∧ dlookup (pyStr slot?) room'.mic_slots = some none) := by
  refine ⟨rfl, rfl, ?_⟩
  intro room hroom hfree
  refine ⟨{ room with
      mic_slots := dinsert (pyStr slot?) none room.mic_slots,
      user_slots := dinsert none (pyStr slot?) room.user_slots }, ?_, ?_⟩
  · simp [applyOp, handleJoinMic, hroom, hfree, dlookup_dinsert]
  · simp [dlookup_dinsert]

/-- Witness for C9 (amended): in a room with slot `"1"` free, `join_mic`
with `userName` absent stores the absent marker as the holder of `"1"`. -/
theorem C9_missing_username_amended_witness :
    ∃ room', dlookup "r1" (applyOp
        [("r1", { users := [("c1", ⟨"alice", 0⟩)],
                  messages := [], mic_slots := [], user_slots := [],
                  created_at := 0, updated_at := 0 })]
        (.joinMic "c1" (some "r1") (some "1") none)).1 = some room'
      ∧ dlookup "1" room'.mic_slots = some none :=
  (C9_missing_username_amended
    [("r1", { users := [("c1", ⟨"alice", 0⟩)],
              messages := [], mic_slots := [], user_slots := [],
              created_at := 0, updated_at := 0 })]
    "c1" (some "r1") none (some "1") 0).2.2
    { users := [("c1", ⟨"alice", 0⟩)],
      messages := [], mic_slots := [], user_slots := [],
      created_at := 0, updated_at := 0 } (by decide) (by decide)

/-- Witness for C7: "alice" disconnects while "bob" remains; the room
survives with one member and "bob" is notified. -/
theorem C7_disconnect_witness :
    applyOp [("r1", { users := [("c1", ⟨"alice", 0⟩), ("c2", ⟨"bob", 1⟩)],
                      messages := [], mic_slots := [], user_slots := [],
                      created_at := 0, updated_at := 0 })]
      (.disconnect "c1" 5) =
    ([("r1", { users := [("c2", ⟨"bob", 1⟩)],
               messages := [⟨"System", "alice left the room", 5⟩],
               mic_slots := [], user_slots := [],
               created_at := 0, updated_at := 0 })],
     [Event.newMessageRoom "r1" ⟨"System", "alice left the room", 5⟩ true]) := by
  have h := (C7_disconnect
    [("r1", { users := [("c1", ⟨"alice", 0⟩), ("c2", ⟨"bob", 1⟩)],
              messages := [], mic_slots := [], user_slots := [],
              created_at := 0, updated_at := 0 })] "c1" 5).2
    [] "r1"
    { users := [("c1", ⟨"alice", 0⟩), ("c2", ⟨"bob", 1⟩)],
      messages := [], mic_slots := [], user_slots := [],
      created_at := 0, updated_at := 0 }
    [] ⟨"alice", 0⟩ rfl (by simp) (by decide)
  exact h.trans (by decide)

end VoiceChat
